import Mathlib

/-!
Verification of the text-processing core of the Rag_Norma repository
(`app/processing/normalizer.py`, `app/processing/segmenter.py`,
`app/processing/structure_parser.py`).

The Python code is shallowly embedded: Python strings become `List Char`,
Python integers become `Int`/`Nat`, dictionaries with optional keys become
structures with `Option` fields, and code that can raise a Python exception
returns `Except PyErr`.  Each definition is translated from the source file
it names; deviations forced by untranslatable details (full Unicode tables,
user-supplied regular expressions) are flagged in the doc comment of the
definition concerned and are never load-bearing for a theorem.
-/

namespace RagNorma

/-- Python exceptions that the embedded code can raise.  The payload is a
short tag naming the offending attribute / variable / group. -/
inductive PyErr where
  | attributeError (what : String)
  | nameError (what : String)
  | unboundLocalError (what : String)
  | typeError (what : String)
  | indexError (what : String)
deriving DecidableEq, Repr

/-- A Python `str`, embedded as its list of Unicode code points. -/
abbrev PyStr := List Char

/-- Code points treated as whitespace by Python's `str.strip` / `str.isspace`
and by `\s` of the `re` module (ASCII whitespace, the C1 separators, NEL,
NBSP and the Unicode space separators). -/
def isPySpace (c : Char) : Bool :=
  let n := c.toNat
  (0x09 ≤ n ∧ n ≤ 0x0D) ∨ (0x1C ≤ n ∧ n ≤ 0x1F) ∨ n = 0x20 ∨ n = 0x85 ∨
    n = 0xA0 ∨ n = 0x1680 ∨ (0x2000 ≤ n ∧ n ≤ 0x200A) ∨ n = 0x2028 ∨
    n = 0x2029 ∨ n = 0x202F ∨ n = 0x205F ∨ n = 0x3000

/-- Python `str.strip()` with no argument: drop leading and trailing
whitespace. -/
def pyStrip (s : PyStr) : PyStr :=
  ((s.dropWhile isPySpace).reverse.dropWhile isPySpace).reverse

/-- Python `str.lower()` restricted to the scripts the embedded patterns
distinguish: ASCII letters and the Russian alphabet (А..Я and Ё).  Other
code points are left unchanged. -/
def pyLowerChar (c : Char) : Char :=
  let n := c.toNat
  if 0x41 ≤ n ∧ n ≤ 0x5A then Char.ofNat (n + 0x20)
  else if 0x410 ≤ n ∧ n ≤ 0x42F then Char.ofNat (n + 0x20)
  else if n = 0x401 then Char.ofNat 0x451
  else c

def pyLower (s : PyStr) : PyStr := s.map pyLowerChar

def isAsciiDigit (c : Char) : Bool := '0' ≤ c ∧ c ≤ '9'

/-- Whether `w` is an initial segment of `r` (Python `str.startswith`). -/
def startsWithList : PyStr → PyStr → Bool
  | [], _ => true
  | _ :: _, [] => false
  | a :: w, b :: r => a = b ∧ startsWithList w r

/-! ## Normalizer (`app/processing/normalizer.py`) -/

/-- `CleanConfig` from `normalizer.py` (lines 27-67).  The field
`bullet_sumbol` keeps the source's misspelling: the dataclass really
declares `bullet_sumbol`, while `clean` later reads `cfg.bullet_symbol`. -/
structure CleanConfig where
  remove_page_numbers : Bool := true
  remove_headers_footers : Bool := true
  header_min_repeats : Int := 3
  header_max_len : Int := 120
  extra_header_footer_regexes : List PyStr := []
  normalize_bullets : Bool := true
  bullet_sumbol : PyStr := ['-']
  max_consecutive_newlines : Int := 2
  collapse_spaces : Bool := true
  fix_hyphenation : Bool := true
  normalize_dashes : Bool := true
  soften_inline_newlines : Bool := false
  inline_newline_window : Int := 60

/-- The default `CleanConfig()`. -/
def defaultCleanConfig : CleanConfig := {}

/-- NFKC compatibility normalization, modelled per code point on the
characters the later stages of this module distinguish (NBSP, the
non-breaking hyphen and the horizontal ellipsis); ASCII and the Russian
alphabet are NFKC-invariant and all other code points are kept unchanged.
Multi-character composition sequences are not modelled; no theorem below
depends on the value of this function outside the modelled subset. -/
def nfkcChar (c : Char) : List Char :=
  let n := c.toNat
  if n = 0xA0 then [' ']
  else if n = 0x2011 then [Char.ofNat 0x2010]
  else if n = 0x2026 then ['.', '.', '.']
  else [c]

/-- Unicode general category C (control/format/surrogate/private-use)
ranges, as tested by `unicodedata.category(ch)[0] == "C"`.  The format
(Cf) list is the standard one; unassigned code points (Cn) are not
modelled.  No theorem below evaluates this outside ASCII and Cyrillic. -/
def isCatC (c : Char) : Bool :=
  let n := c.toNat
  n < 0x20 ∨ (0x7F ≤ n ∧ n ≤ 0x9F) ∨ n = 0xAD ∨
    (0x600 ≤ n ∧ n ≤ 0x605) ∨ n = 0x61C ∨ n = 0x6DD ∨ n = 0x70F ∨
    n = 0x8E2 ∨ n = 0x180E ∨ (0x200B ≤ n ∧ n ≤ 0x200F) ∨
    (0x202A ≤ n ∧ n ≤ 0x202E) ∨ (0x2060 ≤ n ∧ n ≤ 0x2064) ∨
    (0x2066 ≤ n ∧ n ≤ 0x206F) ∨ n = 0xFEFF ∨
    (0xFFF9 ≤ n ∧ n ≤ 0xFFFB) ∨ (0xD800 ≤ n ∧ n ≤ 0xDFFF) ∨
    (0xE000 ≤ n ∧ n ≤ 0xF8FF) ∨ (0xF0000 ≤ n ∧ n ≤ 0xFFFFD) ∨
    (0x100000 ≤ n ∧ n ≤ 0x10FFFD)

/-- `_strip_control_chars` (normalizer.py lines 112-113): keep `\n`, `\t`
and every character whose general category is not C. -/
def stripControlChars (t : PyStr) : PyStr :=
  t.filter (fun c => c = '\n' ∨ c = '\t' ∨ ¬ isCatC c)

/-- `_normalize_unicode` (lines 116-119): NFKC, then delete soft hyphens. -/
def normalizeUnicode (t : PyStr) : PyStr :=
  ((t.map nfkcChar).flatten).filter (fun c => c.toNat ≠ 0xAD)

/-- Character class `[\-‐-―]` used by `RE_HYPHEN_NEWLINE`. -/
def isHyphenDash (c : Char) : Bool :=
  c = '-' ∨ (0x2010 ≤ c.toNat ∧ c.toNat ≤ 0x2015)

/-- Python `\w` restricted to ASCII alphanumerics, underscore and the
Russian alphabet (the scripts exercised here). -/
def isWordChar (c : Char) : Bool :=
  isAsciiDigit c ∨ ('a' ≤ c ∧ c ≤ 'z') ∨ ('A' ≤ c ∧ c ≤ 'Z') ∨ c = '_' ∨
    (0x410 ≤ c.toNat ∧ c.toNat ≤ 0x44F) ∨ c.toNat = 0x401 ∨ c.toNat = 0x451

/-- One left-to-right pass of `RE_HYPHEN_NEWLINE.sub(r"\1\2", text)`:
`word-\nword` becomes `wordword`; scanning resumes after each match.  The
`fuel` argument (instantiated with the list length, an upper bound on the
number of steps) only makes the recursion structural. -/
def hyphenGo : Nat → List Char → List Char
  | 0, l => l
  | _ + 1, [] => []
  | fuel + 1, c1 :: rest =>
    match rest with
    | h :: '\n' :: c2 :: rest2 =>
      if isWordChar c1 ∧ isHyphenDash h ∧ isWordChar c2 then
        c1 :: c2 :: hyphenGo fuel rest2
      else
        c1 :: hyphenGo fuel rest
    | _ => c1 :: hyphenGo fuel rest

def hyphenPass (t : List Char) : List Char := hyphenGo t.length t

/-- `_fix_hyphenation` (lines 122-130): up to three substitution passes,
stopping early at a fixed point. -/
def fixHyphenation (t : PyStr) : PyStr :=
  let t1 := hyphenPass t
  if t1 = t then t
  else
    let t2 := hyphenPass t1
    if t2 = t1 then t1
    else hyphenPass t2

/-- Character class of `RE_ANY_DASH`: `[‐-―]`. -/
def isAnyDash (c : Char) : Bool := 0x2010 ≤ c.toNat ∧ c.toNat ≤ 0x2015

/-- Scanner for `RE_ANY_DASH.sub("-", text)`: every maximal run of dash
code points becomes a single ASCII hyphen.  `prevDash` records whether the
previous character belonged to the current run. -/
def dashAux : List Char → Bool → List Char
  | [], _ => []
  | c :: rest, prevDash =>
    if isAnyDash c then
      if prevDash then dashAux rest true else '-' :: dashAux rest true
    else c :: dashAux rest false

/-- `_normalize_dashes` (lines 140-141). -/
def normalizeDashes (t : PyStr) : PyStr := dashAux t false

/-- `str.splitlines()` helper: `acc` is the current line reversed.  A line
break at the very end of the string does not open a new (empty) line,
matching Python's `splitlines`. -/
def splitlinesAux : List Char → List Char → List PyStr
  | [], acc => [acc.reverse]
  | c :: rest, acc =>
    if c = '\n' ∨ c.toNat = 0x2028 ∨ c.toNat = 0x2029 then
      match rest with
      | [] => [acc.reverse]
      | _ => acc.reverse :: splitlinesAux rest []
    else splitlinesAux rest (c :: acc)

/-- Python `str.splitlines()`.  After `_strip_control_chars` the only
surviving line-break characters are `\n`, U+2028 and U+2029, so only those
are modelled as boundaries. -/
def pySplitlines (t : PyStr) : List PyStr :=
  if t.isEmpty then [] else splitlinesAux t []

/-- Drops one optional dash of the class `[–—-]` (U+2013, U+2014, `-`). -/
def dropOptPageDash (s : PyStr) : PyStr :=
  match s with
  | c :: rest => if c = '-' ∨ c.toNat = 0x2013 ∨ c.toNat = 0x2014 then rest else s
  | [] => s

/-- `RE_PAGE_NUM_PURE.match` (line 88):
`^\s*[–—\-]?\s*\d{1,4}\s*[–—\-]?\s*$` on an already stripped line. -/
def matchPageNumPure (s : PyStr) : Bool :=
  let r := s.dropWhile isPySpace
  let r := dropOptPageDash r
  let r := r.dropWhile isPySpace
  let ds := r.takeWhile isAsciiDigit
  let r := r.dropWhile isAsciiDigit
  let r := r.dropWhile isPySpace
  let r := dropOptPageDash r
  let r := r.dropWhile isPySpace
  1 ≤ ds.length ∧ ds.length ≤ 4 ∧ r.isEmpty

/-- Shared tail of `RE_PAGE_WORD`: `\s*[№:]?\s*\d{1,4}\s*$`. -/
def pageWordTail (r : PyStr) : Bool :=
  let r := r.dropWhile isPySpace
  let r := match r with
           | c :: rest => if c.toNat = 0x2116 ∨ c = ':' then rest else r
           | [] => r
  let r := r.dropWhile isPySpace
  let ds := r.takeWhile isAsciiDigit
  let r := r.dropWhile isAsciiDigit
  let r := r.dropWhile isPySpace
  1 ≤ ds.length ∧ ds.length ≤ 4 ∧ r.isEmpty

/-- `RE_PAGE_WORD.match` (line 89):
`^\s*(стр\.?|страница|page)\s*[№:]?\s*\d{1,4}\s*$`, case-insensitive.  The
three alternation branches are tried independently, mirroring regex
backtracking. -/
def matchPageWord (s : PyStr) : Bool :=
  let r := (pyLower s).dropWhile isPySpace
  (startsWithList "стр".toList r ∧
    (pageWordTail (r.drop 3) ∨
      (r.drop 3).head? = some '.' ∧ pageWordTail (r.drop 4))) ∨
  (startsWithList "страница".toList r ∧ pageWordTail (r.drop 8)) ∨
  (startsWithList "page".toList r ∧ pageWordTail (r.drop 4))

def isDateLetter (c : Char) : Bool :=
  ('a' ≤ c ∧ c ≤ 'z') ∨ ('A' ≤ c ∧ c ≤ 'Z') ∨
    (0x410 ≤ c.toNat ∧ c.toNat ≤ 0x44F)

/-- `RE_DATE_LINE.match` (lines 90-92):
`^\s*(?:\d{1,2}[./]\d{1,2}[./]\d{2,4}|[А-Яа-яA-Za-z]+\s+\d{4}\s*г\.)\s*$`.
Each digit run is delimited by a non-digit, so the greedy counted repeats
are equivalent to taking the whole run and checking its length. -/
def matchDateLine (s : PyStr) : Bool :=
  let r0 := s.dropWhile isPySpace
  let numeric : Bool :=
    let d1 := r0.takeWhile isAsciiDigit
    let r1 := r0.dropWhile isAsciiDigit
    match r1 with
    | c1 :: r2 =>
      (c1 == '.' || c1 == '/') &&
        (let d2 := r2.takeWhile isAsciiDigit
         let r3 := r2.dropWhile isAsciiDigit
         match r3 with
         | c2 :: r4 =>
           (c2 == '.' || c2 == '/') &&
             (let d3 := r4.takeWhile isAsciiDigit
              let r5 := (r4.dropWhile isAsciiDigit).dropWhile isPySpace
              (1 ≤ d1.length ∧ d1.length ≤ 2 ∧ 1 ≤ d2.length ∧ d2.length ≤ 2 ∧
                2 ≤ d3.length ∧ d3.length ≤ 4 ∧ r5.isEmpty : Bool))
         | [] => false)
    | [] => false
  let month : Bool :=
    let w := r0.takeWhile isDateLetter
    let r1 := r0.dropWhile isDateLetter
    let sp := r1.takeWhile isPySpace
    let r2 := r1.dropWhile isPySpace
    let d := r2.takeWhile isAsciiDigit
    let r3 := (r2.dropWhile isAsciiDigit).dropWhile isPySpace
    match r3 with
    | g :: dot :: r4 =>
      1 ≤ w.length ∧ 1 ≤ sp.length ∧ d.length = 4 ∧ g = 'г' ∧ dot = '.' ∧
        (r4.dropWhile isPySpace).isEmpty
    | _ => false
  numeric ∨ month

/-- Character class `[A-ZА-Я0-9\-.:/]` of `RE_HEADER_HINT` under
`re.IGNORECASE` (so lowercase letters match too), applied to an already
lowercased string. -/
def isHintBodyChar (c : Char) : Bool :=
  isAsciiDigit c ∨ ('a' ≤ c ∧ c ≤ 'z') ∨
    (0x430 ≤ c.toNat ∧ c.toNat ≤ 0x44F) ∨
    c = '-' ∨ c = '.' ∨ c = ':' ∨ c = '/'

/-- One attempt of `RE_HEADER_HINT` at the head of an (already lowercased)
suffix: `(ГОСТ|СНиП|СП|ПУЭ|СТО)\s+[A-ZА-Я0-9\-.:/]+|Издание|Изм\.\s*\d+|UTD|ISO`. -/
def hintHere (r : PyStr) : Bool :=
  let kw (w : String) : Bool :=
    let wl := w.toList
    startsWithList wl r ∧
      (let r1 := r.drop wl.length
       let sp := r1.takeWhile isPySpace
       let r2 := r1.dropWhile isPySpace
       1 ≤ sp.length ∧ 1 ≤ (r2.takeWhile isHintBodyChar).length)
  kw "гост" ∨ kw "снип" ∨ kw "сп" ∨ kw "пуэ" ∨ kw "сто" ∨
    startsWithList "издание".toList r ∨
    (startsWithList "изм.".toList r ∧
      (((r.drop 4).dropWhile isPySpace).head?.elim false isAsciiDigit)) ∨
    startsWithList "utd".toList r ∨ startsWithList "iso".toList r

/-- `RE_HEADER_HINT.search` (lines 95-97): the pattern may match at any
position, so every suffix is tried. -/
def hintSearchGo : List Char → Bool
  | [] => hintHere []
  | c :: rest => hintHere (c :: rest) ∨ hintSearchGo rest

/-- `RE_HEADER_HINT.search` (lines 95-97): the pattern may match at any
position, so every suffix is tried. -/
def searchHeaderHint (s : PyStr) : Bool :=
  hintSearchGo (pyLower s)

/-- Tail `\s+таблицы?\s+\d+([.,].*)?$` shared by the table-line patterns:
`word` is the required keyword after the already-consumed head. -/
def tableTail (word : String) (r : PyStr) : Bool :=
  let wl := word.toList
  let sp := r.takeWhile isPySpace
  let r1 := r.dropWhile isPySpace
  1 ≤ sp.length ∧ startsWithList wl r1 ∧
    (let r2 := r1.drop wl.length
     let sp2 := r2.takeWhile isPySpace
     let r3 := r2.dropWhile isPySpace
     let ds := r3.takeWhile isAsciiDigit
     let r4 := r3.dropWhile isAsciiDigit
     1 ≤ sp2.length ∧ 1 ≤ ds.length ∧
       (r4.isEmpty ∨ r4.head? = some '.' ∨ r4.head? = some ','))

/-- `RE_TABLE_CONT.match` (lines 100-102):
`^\s*(продолжение|окончание)\s+таблицы\s+\d+([.,].*)?$`, case-insensitive. -/
def matchTableCont (s : PyStr) : Bool :=
  let r := (pyLower s).dropWhile isPySpace
  (startsWithList "продолжение".toList r ∧ tableTail "таблицы" (r.drop 11)) ∨
    (startsWithList "окончание".toList r ∧ tableTail "таблицы" (r.drop 9))

/-- Tail `\s+\d+([.,].*)?$` after a table/figure keyword. -/
def headNumTail (r : PyStr) : Bool :=
  let sp := r.takeWhile isPySpace
  let r1 := r.dropWhile isPySpace
  let ds := r1.takeWhile isAsciiDigit
  let r2 := r1.dropWhile isAsciiDigit
  1 ≤ sp.length ∧ 1 ≤ ds.length ∧
    (r2.isEmpty ∨ r2.head? = some '.' ∨ r2.head? = some ',')

/-- `RE_TABLE_HEAD.match` (line 103): `^\s*таблица\s+\d+([.,].*)?$`. -/
def matchTableHead (s : PyStr) : Bool :=
  let r := (pyLower s).dropWhile isPySpace
  startsWithList "таблица".toList r ∧ headNumTail (r.drop 7)

/-- `RE_FIG_HEAD.match` (line 104): `^\s*рисунок\s+\d+([.,].*)?$`. -/
def matchFigHead (s : PyStr) : Bool :=
  let r := (pyLower s).dropWhile isPySpace
  startsWithList "рисунок".toList r ∧ headNumTail (r.drop 7)

/-- Whether a stripped line enters the repeat-frequency dictionary of
`_drop_header_footer_lines` (lines 199-206): non-empty, short enough, and
matching the hint / page-word / page-number patterns.  The test depends
only on the stripped line, so the dictionary lookup below is a count. -/
def isFreqCandidate (cfg : CleanConfig) (s : PyStr) : Bool :=
  ¬ s.isEmpty ∧ (s.length : Int) ≤ cfg.header_max_len ∧
    (searchHeaderHint s ∨ matchPageWord s ∨ matchPageNumPure s)

/-- `freq.get(s, 0)` of `_drop_header_footer_lines`: how many lines of the
document strip to `s`, when `s` was registered as a candidate. -/
def freqOf (lines : List PyStr) (cfg : CleanConfig) (s : PyStr) : Nat :=
  if isFreqCandidate cfg s then lines.countP (fun raw => pyStrip raw = s) else 0

/-- User-supplied extra header/footer regexes are not modelled: the source
compiles each pattern, silently skipping invalid ones, and drops lines the
compiled patterns match.  No claim exercises a non-empty pattern list, so
the match test is modelled as always-false and flagged here. -/
def extraPatternsMatch (_pats : List PyStr) (_s : PyStr) : Bool := false

/-- Per-line body of `_drop_header_footer_lines` (lines 208-237): `true`
means the line is kept. -/
def keepLine (lines : List PyStr) (cfg : CleanConfig) (ln : PyStr) : Bool :=
  let s := pyStrip ln
  if s.isEmpty then true
  else if cfg.remove_page_numbers ∧ (matchPageNumPure s ∨ matchPageWord s) then false
  else if matchDateLine s then false
  else if matchTableCont s then false
  else
    let isHeaderish := searchHeaderHint s ∨ matchTableHead s ∨ matchFigHead s
    let repeatedEnough := (freqOf lines cfg s : Int) ≥ cfg.header_min_repeats
    if cfg.remove_headers_footers ∧ isHeaderish ∧
        (repeatedEnough ∨ (s.length : Int) ≤ cfg.header_max_len) then false
    else if extraPatternsMatch cfg.extra_header_footer_regexes s then false
    else true

/-- `_drop_header_footer_lines` (lines 183-239). -/
def dropHeaderFooterLines (lines : List PyStr) (cfg : CleanConfig) : List PyStr :=
  lines.filter (keepLine lines cfg)

/-- Python `text.split("\n")` (keeps empty segments, including a trailing
one). -/
def splitOnNlAux : List Char → List Char → List PyStr
  | [], acc => [acc.reverse]
  | c :: rest, acc =>
    if c = '\n' then acc.reverse :: splitOnNlAux rest []
    else splitOnNlAux rest (c :: acc)

def splitOnNl (t : PyStr) : List PyStr := splitOnNlAux t []

/-- Whether the scan of `_soften_inline_newlines` (lines 145-161) reaches
the misspelled free variable `windows`: the first adjacent pair with
`0 < len(cur) <= window` and `0 < len(nxt)` evaluates `len(nxt) <= windows`
and raises `NameError`; until then no line is merged, so a `NameError` is
raised exactly when some adjacent pair qualifies. -/
def softenTrigger (window : Int) : List PyStr → Bool
  | a :: b :: rest =>
    (0 < a.length ∧ (a.length : Int) ≤ window ∧ 0 < b.length) ∨
      softenTrigger window (b :: rest)
  | _ => false

/-- `_soften_inline_newlines` (lines 145-161).  The comparison
`len(nxt) <= windows` names the undefined `windows` (the parameter is
`window`), so the function raises `NameError` whenever a merge candidate is
reached, and otherwise returns its input unchanged. -/
def softenInlineNewlines (t : PyStr) (window : Int) : Except PyErr PyStr :=
  let lines := splitOnNl t
  if softenTrigger window lines then Except.error (PyErr.nameError "windows")
  else Except.ok (List.intercalate ['\n'] lines)

/-- Scanner for `re.sub(r"[ ]{2,}", " ", ·)` composed with
`replace("\t", " ")`: every maximal run of blanks collapses to one space. -/
def collapseSpacesAux : List Char → Bool → List Char
  | [], _ => []
  | c :: rest, prevSp =>
    if c = ' ' ∨ c = '\t' then
      if prevSp then collapseSpacesAux rest true
      else ' ' :: collapseSpacesAux rest true
    else c :: collapseSpacesAux rest false

/-- Scanner for `re.sub("\n{m+1,}", "\n"*m, ·)`: a maximal run of `k`
newlines is emitted as `min k m` newlines (runs of at most `m` newlines
are untouched). -/
def capNlAux (m : Nat) : List Char → Nat → List Char
  | [], nl => List.replicate (min nl m) '\n'
  | c :: rest, nl =>
    if c = '\n' then capNlAux m rest (nl + 1)
    else List.replicate (min nl m) '\n' ++ c :: capNlAux m rest 0

/-- `_collapse_spaces_and_newlines` (lines 163-180). -/
def collapseSpacesAndNewlines (t : PyStr) (collapse : Bool)
    (maxNl : Int) : PyStr :=
  let t1 := if collapse then collapseSpacesAux t false else t
  let t2 := if 1 ≤ maxNl then capNlAux maxNl.toNat t1 0 else t1
  pyStrip t2

/-- `clean` (normalizer.py lines 247-276).  The source reads
`cfg.bullet_symbol` while the dataclass field is spelled `bullet_sumbol`,
so whenever `normalize_bullets` is enabled the attribute lookup raises
`AttributeError` before `_normalize_bullets` is called; the stages after
that point run only when `normalize_bullets` is disabled. -/
def clean (text : PyStr) (cfg : CleanConfig) : Except PyErr PyStr :=
  let t1 := normalizeUnicode text
  let t2 := stripControlChars t1
  let t3 := if cfg.fix_hyphenation then fixHyphenation t2 else t2
  let t4 := if cfg.normalize_dashes then normalizeDashes t3 else t3
  if cfg.normalize_bullets then
    Except.error (PyErr.attributeError "bullet_symbol")
  else
    let lines := dropHeaderFooterLines (pySplitlines t4) cfg
    let t5 := List.intercalate ['\n'] lines
    let t6 : Except PyErr PyStr :=
      if cfg.soften_inline_newlines then
        softenInlineNewlines t5 cfg.inline_newline_window
      else Except.ok t5
    t6.map (fun u =>
      collapseSpacesAndNewlines u cfg.collapse_spaces cfg.max_consecutive_newlines)

/-! ## Segmenter (`app/processing/segmenter.py`) -/

/-- `SegmentConfig` (segmenter.py lines 29-51). -/
structure SegmentConfig where
  target_len : Int := 900
  max_len : Int := 1200
  min_len : Int := 250
  overlap : Int := 120
  prefer_headings : Bool := true
  min_par_len : Int := 20
  min_sent_len : Int := 20

/-- The default `SegmentConfig()`. -/
def defaultSegmentConfig : SegmentConfig := {}

/-- Scanner for `PARA_SPLIT_RE.split` (pattern `\n{2,}`): segments are
separated by maximal runs of at least two newlines.  `acc` holds the
current segment reversed and `nl` counts the newlines seen since the last
non-newline character. -/
def paraScan : List Char → List Char → Nat → List PyStr
  | [], acc, nl =>
    if 2 ≤ nl then [acc.reverse, []]
    else if nl = 1 then [acc.reverse ++ ['\n']]
    else [acc.reverse]
  | c :: rest, acc, nl =>
    if c = '\n' then paraScan rest acc (nl + 1)
    else if 2 ≤ nl then acc.reverse :: paraScan rest [c] 0
    else if nl = 1 then paraScan rest (c :: '\n' :: acc) 0
    else paraScan rest (c :: acc) 0

/-- `_split_paragraphs` (segmenter.py lines 87-89): split on blank-line
runs, strip each part, drop the empty ones. -/
def splitParagraphs (t : PyStr) : List PyStr :=
  ((paraScan t [] 0).map pyStrip).filter (fun p => ¬ p.isEmpty)

/-- Sentence-final punctuation of `SENT_SPLIT_RE`: `[.?!:;…]`. -/
def isSentPunct (c : Char) : Bool :=
  c = '.' ∨ c = '?' ∨ c = '!' ∨ c = ':' ∨ c = ';' ∨ c.toNat = 0x2026

/-- Scanner for `SENT_SPLIT_RE.split` (pattern `(?<=[.?!:;…])\s+`): a cut
happens at a maximal whitespace run whose preceding character is sentence
punctuation.  `prevP` records whether the previous character was such
punctuation and `inRun` whether the scanner is inside the separating run. -/
def sentScan : List Char → List Char → Bool → Bool → List PyStr
  | [], acc, _, _ => [acc.reverse]
  | c :: rest, acc, prevP, inRun =>
    if inRun then
      if isPySpace c then sentScan rest acc false true
      else sentScan rest (c :: acc) (isSentPunct c) false
    else if isPySpace c ∧ prevP then acc.reverse :: sentScan rest [] false true
    else sentScan rest (c :: acc) (isSentPunct c) false

/-- `_split_sentences` (segmenter.py lines 101-103). -/
def splitSentences (par : PyStr) : List PyStr :=
  ((sentScan par [] false false).map pyStrip).filter (fun p => ¬ p.isEmpty)

/-- `_soft_cut` (segmenter.py lines 112-152).  When the buffer is short
enough it reports `-1`.  Otherwise the sentence loop computes
`dist = abs(ens - target)` where `ens` is undefined (the variable is
`end`), so the first sentence whose end clears `min_len` raises
`NameError('ens')`; since `pos` is never advanced, that end is just the
sentence's own length.  If every sentence is skipped, the whitespace
fallback evaluates `if rigth != -1` — `rigth` is likewise undefined — and
raises `NameError('rigth')`.  The target-clamping arithmetic and the
`rfind`/`find` calls before those points are pure and cannot raise. -/
def softCut (buffer : PyStr) (cfg : SegmentConfig) : Except PyErr Int :=
  if (buffer.length : Int) ≤ cfg.max_len then Except.ok (-1)
  else if (splitSentences buffer).any
      (fun s => ¬ ((s.length : Int) < cfg.min_len)) then
    Except.error (PyErr.nameError "ens")
  else
    Except.error (PyErr.nameError "rigth")

/-- `chunk_text_with_spans` (segmenter.py lines 168-282).  The first loop
over paragraphs executes `is_head = _is_heading(p)` where `p` is a local
of a *later* loop, so any text with a non-empty paragraph raises
`UnboundLocalError('p')`.  When there is no paragraph both loops are
skipped and — because the function's `return` statement is indented inside
the paragraph loop — the function falls off its end and returns `None`
(embedded as `Except.ok none`).  Everything after the first statement of
the first loop is unreachable and therefore not modelled. -/
def chunkTextWithSpans (text : PyStr) (_cfg : SegmentConfig) :
    Except PyErr (Option (List PyStr × List (Int × Int))) :=
  let paragraphs := splitParagraphs text
  if paragraphs.isEmpty then Except.ok none
  else Except.error (PyErr.unboundLocalError "p")

/-- `chunk_text` (segmenter.py lines 160-162): unpacks the pair returned
by `chunk_text_with_spans`; on the empty-text path that value is `None`,
so the unpacking itself raises `TypeError`. -/
def chunkText (text : PyStr) (cfg : SegmentConfig) :
    Except PyErr (List PyStr) :=
  match chunkTextWithSpans text cfg with
  | Except.error e => Except.error e
  | Except.ok none => Except.error (PyErr.typeError "cannot unpack None")
  | Except.ok (some (chunks, _)) => Except.ok chunks

/-! ## Page mapper (`approximate_pages`, segmenter.py lines 290-313) -/

/-- One page descriptor of `pages_meta`: a dictionary whose `page` and
`chars` keys may be absent (`p.get(k, 0)` supplies the default `0`).
Non-integer values would raise in `int(...)` and are not modelled; the
claims only exercise integer or missing values. -/
structure PageMeta where
  page : Option Int := none
  chars : Option Int := none
deriving DecidableEq, Repr

/-- The cutoff-building loop of `approximate_pages` (lines 299-304):
`s` is the running character offset and `k` the number of cutoffs built so
far, so `int(p.get("page", 0)) or (len(cutoffs) + 1)` becomes the
positional fallback when the stored page number is `0` (falsy). -/
def buildCutoffs : List PageMeta → Int → Nat → List (Int × Int × Int)
  | [], _, _ => []
  | p :: rest, s, k =>
    let s2 := s + p.chars.getD 0
    let pg : Int := if p.page.getD 0 = 0 then (k : Int) + 1 else p.page.getD 0
    (s, s2, pg) :: buildCutoffs rest s2 (k + 1)

/-- Python `(min(l), max(l))` on a hit list, `(None, None)` when empty. -/
def minMaxOpt : List Int → Option Int × Option Int
  | [] => (none, none)
  | h :: t => (some (t.foldl min h), some (t.foldl max h))

/-- `approximate_pages` (segmenter.py lines 290-313).  The misspelled
local type annotations (`nt`, `Tupe`) in the source are never evaluated at
run time (PEP 526), so the function is total. -/
def approximatePages (pm : List PageMeta) (spans : List (Int × Int)) :
    List (Option Int × Option Int) :=
  if pm.isEmpty then spans.map (fun _ => (none, none))
  else
    let cutoffs := buildCutoffs pm 0 0
    spans.map (fun sp =>
      minMaxOpt ((cutoffs.filter (fun c =>
        !(decide (c.2.1 ≤ sp.1) || decide (c.1 ≥ sp.2)))).map (fun c => c.2.2)))

/-! ## Structure parser (`app/processing/structure_parser.py`)

The six pattern families are `re.MULTILINE` patterns anchored at `^`, so
they are modelled line by line, the match start being the line's offset.
(The leading `\s*` of a pattern can in the source also absorb a directly
preceding whitespace-only line, shifting `m.start()` to that line; no
theorem below exercises such an input, and the shift does not affect
which lines match.) -/

/-- `Anchor` (structure_parser.py lines 64-72).  The source field `end` is
a reserved word in Lean and is embedded as `end_`. -/
structure Anchor where
  kind : String
  id : PyStr
  title : PyStr
  start : Int
  end_ : Int
  level : Int
  raw_kind : PyStr
deriving DecidableEq, Repr

/-- `_mk_anchor` (structure_parser.py lines 103-115).  For the clause and
numtitle kinds the level computation calls `_dot_depth(id)`: no function
of that name exists (the helper is misspelled `_bot_depth` at its
definition), so the lookup raises `NameError('_dot_depth')`.  The other
kinds never reach that call. -/
def mkAnchor (kind : String) (rawKind id title : PyStr) (start : Int) :
    Except PyErr Anchor :=
  let lvl : Except PyErr Int :=
    if kind = "section" ∨ kind = "appendix" then Except.ok 1
    else if kind = "clause" ∨ kind = "numtitle" then
      Except.error (PyErr.nameError "_dot_depth")
    else if kind = "table" ∨ kind = "figure" then Except.ok 99
    else Except.ok 5
  lvl.map (fun level =>
    { kind := kind, raw_kind := rawKind, id := pyStrip id,
      title := pyStrip title, start := start, end_ := 1, level := level })

/-- Splits a text into its lines together with each line's start offset
(the positions where `^` matches in `re.MULTILINE` mode). -/
def lineOffsetsAux : List Char → List Char → Int → Int → List (Int × PyStr)
  | [], acc, segStart, _ => [(segStart, acc.reverse)]
  | c :: rest, acc, segStart, pos =>
    if c = '\n' then (segStart, acc.reverse) :: lineOffsetsAux rest [] (pos + 1) (pos + 1)
    else lineOffsetsAux rest (c :: acc) segStart (pos + 1)

def lineOffsets (t : PyStr) : List (Int × PyStr) := lineOffsetsAux t [] 0 0

/-- Roman-numeral letters `[IVXLCDM]` under `re.IGNORECASE`. -/
def isRomanChar (c : Char) : Bool :=
  let l := pyLowerChar c
  l = 'i' ∨ l = 'v' ∨ l = 'x' ∨ l = 'l' ∨ l = 'c' ∨ l = 'd' ∨ l = 'm'

/-- Consumes the trailing `\s*[.)]?\s*(?P<title>.*)$` of the heading
patterns and returns the title. -/
def punctTitleTail (r : PyStr) : PyStr :=
  let r1 := r.dropWhile isPySpace
  let r2 := match r1 with
            | c :: rest => if c = '.' ∨ c = ')' then rest else r1
            | [] => r1
  r2.dropWhile isPySpace

/-- `RE_SECTION` (lines 25-28) applied to one line:
`^\s*(Раздел|Глава|Часть)\s+([IVXLCDM]+|\d+)\s*[.)]?\s*(.*)$`,
case-insensitive.  Returns `(raw kind word, id, title)` on a match. -/
def sectionParse (line : PyStr) : Option (PyStr × PyStr × PyStr) :=
  let r := line.dropWhile isPySpace
  let low := pyLower r
  let tryKind (w : String) : Option (PyStr × PyStr × PyStr) :=
    let k := w.length
    if startsWithList w.toList low then
      let rk := r.take k
      let r1 := r.drop k
      let sp := r1.takeWhile isPySpace
      let r2 := r1.dropWhile isPySpace
      if 1 ≤ sp.length then
        let roman := r2.takeWhile isRomanChar
        if 1 ≤ roman.length then
          some (rk, roman, punctTitleTail (r2.drop roman.length))
        else
          let ds := r2.takeWhile isAsciiDigit
          if 1 ≤ ds.length then
            some (rk, ds, punctTitleTail (r2.drop ds.length))
          else none
      else none
    else none
  (tryKind "раздел").orElse (fun _ => (tryKind "глава").orElse (fun _ => tryKind "часть"))

/-- Character class `[A-ЯA-Z\d]` of `RE_APPENDIX` under `re.IGNORECASE`:
Latin letters, the basic Cyrillic letters А..я (but not Ё/ё) and digits. -/
def isAppendixIdChar (c : Char) : Bool :=
  let n := c.toNat
  isAsciiDigit c ∨ (0x41 ≤ n ∧ n ≤ 0x5A) ∨ (0x61 ≤ n ∧ n ≤ 0x7A) ∨
    (0x410 ≤ n ∧ n ≤ 0x44F)

/-- `RE_APPENDIX` (lines 31-34) applied to one line:
`^\s*(Приложение)\s*([A-ЯA-Z\d]+)?\s*[.)]?\s*(.*)$`, case-insensitive.
A missing id group becomes `""` (`m.group("id") or ""` in the caller). -/
def appendixParse (line : PyStr) : Option (PyStr × PyStr × PyStr) :=
  let r := line.dropWhile isPySpace
  if startsWithList "приложение".toList (pyLower r) then
    let rk := r.take 10
    let r1 := (r.drop 10).dropWhile isPySpace
    let idRun := r1.takeWhile isAppendixIdChar
    some (rk, idRun, punctTitleTail (r1.drop idRun.length))
  else none

/-- The dotted-number tail `(?:\.\d+)*` after a digit run: consumes every
`.digits` group (each group's digits are delimited by a non-digit, so the
greedy counted repetition is equivalent).  Returns the remainder and the
number of groups consumed. -/
def dottedGroupsGo : Nat → List Char → Nat → PyStr × Nat
  | 0, r, k => (r, k)
  | fuel + 1, r, k =>
    match r with
    | '.' :: rest =>
      let ds := rest.takeWhile isAsciiDigit
      if 1 ≤ ds.length then dottedGroupsGo fuel (rest.drop ds.length) (k + 1)
      else ('.' :: rest, k)
    | _ => (r, k)

/-- Entry point: the fuel (the remainder's length, an upper bound on the
group count) only makes the recursion structural. -/
def dottedGroups (r : PyStr) (k : Nat) : PyStr × Nat :=
  dottedGroupsGo r.length r k

/-- `RE_TABLE` / `RE_FIG` (lines 49-57) applied to one line:
`^\s*(Таблица|Рисунок)\s+(\d+(?:\.\d+)*)\s*(.*)$`, case-insensitive.
`word` selects the keyword. -/
def captionParse (word : String) (line : PyStr) : Option (PyStr × PyStr × PyStr) :=
  let r := line.dropWhile isPySpace
  let k := word.length
  if startsWithList word.toList (pyLower r) then
    let rk := r.take k
    let r1 := r.drop k
    let sp := r1.takeWhile isPySpace
    let r2 := r1.dropWhile isPySpace
    if 1 ≤ sp.length then
      let ds := r2.takeWhile isAsciiDigit
      if 1 ≤ ds.length then
        let (rest, _) := dottedGroups (r2.drop ds.length) 0
        let idLen := r2.length - rest.length
        some (rk, r2.take idLen, rest.dropWhile isPySpace)
      else none
    else none
  else none

/-- Whether `RE_CLAUSE` (lines 37-40) matches at the start of a line:
`^\s*(Пункт|Подпункт|П\.|п\.)\s+(\d+(?:\.\d+){0,4})...`, case-insensitive.
Only existence is needed: the first clause match sends `_mk_anchor` into
the `NameError('_dot_depth')` branch. -/
def clauseMatches (line : PyStr) : Bool :=
  let low := (pyLower line).dropWhile isPySpace
  let tail (r : PyStr) : Bool :=
    let sp := r.takeWhile isPySpace
    let r1 := r.dropWhile isPySpace
    1 ≤ sp.length ∧ 1 ≤ (r1.takeWhile isAsciiDigit).length
  (startsWithList "пункт".toList low ∧ tail (low.drop 5)) ∨
    (startsWithList "подпункт".toList low ∧ tail (low.drop 8)) ∨
    (startsWithList "п.".toList low ∧ tail (low.drop 2))

/-- First character class `[A-ЯA-ZЁ]` of `RE_NUM_TITLE` (no IGNORECASE):
the code points from Latin `A` (U+0041) through Cyrillic `Я` (U+042F),
plus `Ё`. -/
def isNumTitleFirstChar (c : Char) : Bool :=
  let n := c.toNat
  (0x41 ≤ n ∧ n ≤ 0x42F) ∨ n = 0x401

/-- Whether `RE_NUM_TITLE` (lines 43-46) matches at the start of a line:
`^\s*(\d+(?:\.\d+){0,2})\s+([A-ЯA-ZЁ].{2,})$`.  More than two dotted
groups cannot match (any shorter split leaves a `.` where `\s+` is
required).  Only existence is needed: the numtitle loop reads
`m.group("kind")`, a group this pattern does not define, raising
`IndexError` on the first match. -/
def numTitleMatches (line : PyStr) : Bool :=
  let r := line.dropWhile isPySpace
  let ds := r.takeWhile isAsciiDigit
  if 1 ≤ ds.length then
    let (rest, k) := dottedGroups (r.drop ds.length) 0
    let sp := rest.takeWhile isPySpace
    let r2 := rest.dropWhile isPySpace
    (k ≤ 2 : Bool) && (1 ≤ sp.length : Bool) &&
      (match r2 with
       | c :: t => (isNumTitleFirstChar c ∧ 2 ≤ t.length : Bool)
       | [] => false)
  else false

/-- Anchors contributed by one pattern family: one candidate per matching
line, at the line's offset. -/
def familyAnchors (kind : String)
    (parse : PyStr → Option (PyStr × PyStr × PyStr)) (lns : List (Int × PyStr)) :
    Except PyErr (List Anchor) :=
  lns.foldr (fun ln acc => do
    let rest ← acc
    match parse ln.2 with
    | some (rk, id, title) => do
      let a ← mkAnchor kind rk id title ln.1
      Except.ok (a :: rest)
    | none => Except.ok rest) (Except.ok [])

/-- Stable insertion used to model Python's stable `sort(key=a.start)`. -/
def insertByStart (a : Anchor) : List Anchor → List Anchor
  | [] => [a]
  | b :: rest => if a.start < b.start then a :: b :: rest else b :: insertByStart a rest

def sortByStart (l : List Anchor) : List Anchor :=
  l.foldl (fun acc a => insertByStart a acc) []

/-- The `end` pass of `find_anchors`: each anchor's `end` becomes the next
anchor's `start`, the last one's the text length. -/
def setEnds (total : Int) : List Anchor → List Anchor
  | [] => []
  | [a] => [{ a with end_ := total }]
  | a :: b :: rest => { a with end_ := b.start } :: setEnds total (b :: rest)

/-- The priority table of the dedup loop (line 158). -/
def kindPriority (k : String) : Nat :=
  if k = "section" ∨ k = "appendix" then 1
  else if k = "clause" then 2
  else if k = "numtitle" then 3
  else if k = "table" ∨ k = "figure" then 9
  else 5

/-- One step of the dedup loop (lines 153-162); `acc` is the dedup list
reversed. -/
def dedupStep (acc : List Anchor) (a : Anchor) : List Anchor :=
  match acc with
  | last :: rest =>
    if (a.start - last.start).natAbs < 2 ∧ a.id = last.id then
      if kindPriority a.kind < kindPriority last.kind then a :: rest else acc
    else a :: acc
  | [] => [a]

def dedupAnchors (l : List Anchor) : List Anchor :=
  (l.foldl dedupStep []).reverse

/-- `find_anchors` (structure_parser.py lines 125-168).  The section and
appendix loops build their candidates; the clause loop raises
`NameError('_dot_depth')` inside `_mk_anchor` at its first match, and the
numtitle loop raises `IndexError` (`m.group("kind")` — the pattern has no
such group) at its first match; afterwards tables and figures are added,
the candidates are sorted by start, `end` fields are chained, duplicates
are merged keeping the higher-priority kind, and `end` fields are chained
again. -/
def findAnchors (text : PyStr) : Except PyErr (List Anchor) := do
  let lns := lineOffsets text
  let secs ← familyAnchors "section" sectionParse lns
  let apps ← familyAnchors "appendix" appendixParse lns
  if lns.any (fun ln => clauseMatches ln.2) then
    Except.error (PyErr.nameError "_dot_depth")
  else if lns.any (fun ln => numTitleMatches ln.2) then
    Except.error (PyErr.indexError "kind")
  else do
    let tabs ← familyAnchors "table" (captionParse "таблица") lns
    let figs ← familyAnchors "figure" (captionParse "рисунок") lns
    let anchors := sortByStart (secs ++ apps ++ tabs ++ figs)
    let anchors := setEnds (text.length : Int) anchors
    let anchors := dedupAnchors anchors
    Except.ok (setEnds (text.length : Int) anchors)

/-- `_best_anchor_for_pos` (structure_parser.py lines 180-211).  The first
loop takes the last anchor of the initial run with `start ≤ pos` (it
breaks at the first anchor past `pos`).  If none exists the function
returns `None` without raising.  Otherwise the second (reversed) loop, at
the first anchor with `start ≤ pos` that is not a table/figure and has
`start ≥ best.start`, evaluates `a.level > bext.level` — `bext` is an
undefined name (the variable is `best`) — and raises `NameError`; if no
anchor qualifies, the initial candidate is returned. -/
def bestAnchorForPos (anchors : List Anchor) (pos : Int) :
    Except PyErr (Option Anchor) :=
  if anchors.isEmpty then Except.ok none
  else
    match (anchors.takeWhile (fun a => a.start ≤ pos)).getLast? with
    | none => Except.ok none
    | some best =>
      if anchors.any (fun a =>
          a.start ≤ pos ∧ a.kind ≠ "table" ∧ a.kind ≠ "figure" ∧
            best.start ≤ a.start) then
        Except.error (PyErr.nameError "bext")
      else Except.ok (some best)

/-- `annotate_chunks_with_sections` (structure_parser.py lines 215-224).
The loop body binds `start = current_process` — the `multiprocessing`
*function* imported at the top of the file, not an offset — and passes it
to `_best_anchor_for_pos`.  With a non-empty anchor list the comparison
`a.start <= pos` there compares an `int` with a function and raises
`TypeError`; with no anchors the callee returns `None` first, so every
chunk gets label `None`. -/
def annotateChunksWithSections (text : PyStr) (chunks : List PyStr) :
    Except PyErr (List (Option PyStr)) := do
  let anchors ← findAnchors text
  if anchors.isEmpty then Except.ok (chunks.map (fun _ => none))
  else if chunks.isEmpty then Except.ok []
  else Except.error (PyErr.typeError "le int function")

/-! ## Spec-side page mapper and concrete inputs -/

/-- Spec-side cumulative character offset: the total of the `chars` counts
of the first `i` pages (spec §4.4: "build cumulative ranges by walking
`pages_meta` once and accumulating `chars`"). -/
def cumChars (pm : List PageMeta) (i : Nat) : Int :=
  ((pm.take i).map (fun p => p.chars.getD 0)).sum

/-- Spec-side page number of the `i`-th descriptor: its stored `page`
value, or the 1-based position when that value is `0`/absent. -/
def specPageNo (pm : List PageMeta) (i : Nat) : Int :=
  match pm[i]? with
  | some p => if p.page.getD 0 = 0 then (i : Int) + 1 else p.page.getD 0
  | none => 0

/-- Generalization of `specPageNo` by the running cutoff count `k`, used to
characterize `buildCutoffs` at an arbitrary starting state. -/
def pageNumAt (pm : List PageMeta) (k i : Nat) : Int :=
  match pm[i]? with
  | some p => if p.page.getD 0 = 0 then ((k + i : Nat) : Int) + 1 else p.page.getD 0
  | none => 0

/-- Spec-side: the page numbers of every page whose cumulative character
range overlaps the span, in page order (spec §4.4: "collect every page
range that overlaps it (`not (page_end ≤ span_start or page_start ≥
span_end)`)"). -/
def specOverlapPages (pm : List PageMeta) (sp : Int × Int) : List Int :=
  ((List.range pm.length).filter (fun i =>
    !(decide (cumChars pm (i + 1) ≤ sp.1) || decide (cumChars pm i ≥ sp.2)))).map
    (specPageNo pm)

/-- Spec-side restatement of `approximate_pages`, written from the words
of spec §4.4: for each span, `(min page, max page)` among the overlapping
pages, `(None, None)` when there is none (which covers empty
`pages_meta`). -/
def approximatePagesSpec (pm : List PageMeta) (spans : List (Int × Int)) :
    List (Option Int × Option Int) :=
  spans.map (fun sp => minMaxOpt (specOverlapPages pm sp))

/-- The result of `approximate_pages` for one span, as a standalone
function: used to state that the full run is the pointwise map of this
function over the span list. -/
def pageRangeForSpan (pm : List PageMeta) (sp : Int × Int) :
    Option Int × Option Int :=
  if pm.isEmpty then (none, none)
  else
    minMaxOpt (((buildCutoffs pm 0 0).filter (fun c =>
      !(decide (c.2.1 ≤ sp.1) || decide (c.1 ≥ sp.2)))).map (fun c => c.2.2))

/-- The input of spec Scenario 1. -/
def scenario1Text : PyStr := "Страница 3\n\nОсновной текст.\n\nСтраница 3".toList

/-- `CleanConfig(header_min_repeats=2)` of spec Scenario 1. -/
def scenario1Config : CleanConfig := { header_min_repeats := 2 }

/-- A small segment configuration (`max_len = 5`) making tiny buffers
oversized, so the unreachable-code errors are exercised on short inputs. -/
def smallSegmentConfig : SegmentConfig :=
  { target_len := 4, max_len := 5, min_len := 2, overlap := 1 }

/-- Like `smallSegmentConfig` but with `min_len = 4`, so that no sentence
of the probe buffer reaches `min_len` and the whitespace fallback of
`_soft_cut` is reached. -/
def noSentenceFitsConfig : SegmentConfig :=
  { target_len := 4, max_len := 5, min_len := 4, overlap := 1 }

/-- A single paragraph (no blank line, no space, no sentence punctuation)
exceeding `smallSegmentConfig.max_len`. -/
def oversizedParagraph : PyStr := "aaaaaaa".toList

/-- A concrete section anchor at offset 0 (what `find_anchors` builds for
a text starting with a section heading). -/
def sampleAnchor : Anchor :=
  { kind := "section", id := ['1'], title := [], start := 0, end_ := 5,
    level := 1, raw_kind := "Раздел".toList }

/-- A concrete anchor whose `start` lies past position 0. -/
def sampleAnchorLate : Anchor := { sampleAnchor with start := 3, end_ := 9 }

/-- The `pages_meta` of spec Scenario 5. -/
def scenario5Pages : List PageMeta :=
  [{ page := some 1, chars := some 100 }, { page := some 2, chars := some 50 }]

/-! ## Theorems -/

/-- Shared: with list-marker normalization enabled (the default), `clean`
stops at the misspelled attribute `cfg.bullet_symbol` and raises
`AttributeError`, whatever the input text. -/
lemma clean_bullets_attr_error (text : PyStr) (cfg : CleanConfig)
    (h : cfg.normalize_bullets = true) :
    clean text cfg = Except.error (PyErr.attributeError "bullet_symbol") := by
  simp [clean, h]

/-- Claim C1.  The claim says `clean(text, config)` is total for every
input string and every `CleanConfig`, including the default, with no
escaping exception.  In fact, whenever `normalize_bullets` is enabled —
as it is in the default configuration — `clean` raises `AttributeError`
on every input, because it reads `cfg.bullet_symbol` while the dataclass
field is spelled `bullet_sumbol`. -/
theorem c1_clean_not_total (text : PyStr) (cfg : CleanConfig)
    (h : cfg.normalize_bullets = true) :
    clean text cfg = Except.error (PyErr.attributeError "bullet_symbol") :=
  clean_bullets_attr_error text cfg h

theorem c1_clean_not_total_witness :
    defaultCleanConfig.normalize_bullets = true ∧
      clean "ГОСТ 12".toList defaultCleanConfig =
        Except.error (PyErr.attributeError "bullet_symbol") :=
  ⟨rfl, c1_clean_not_total "ГОСТ 12".toList defaultCleanConfig rfl⟩

/-- Claim C2.  The claim says the chunks of `chunk_text_with_spans`
reconstruct the input after stripping overlaps, with matching span
lengths.  In fact, any text containing a non-empty paragraph makes the
function raise `UnboundLocalError('p')` in its first loop (`_is_heading(p)`
reads a variable that only a later loop binds), so no chunk list is
produced at all. -/
theorem c2_chunks_never_produced (text : PyStr) (cfg : SegmentConfig)
    (h : splitParagraphs text ≠ []) :
    chunkTextWithSpans text cfg = Except.error (PyErr.unboundLocalError "p") := by
  unfold chunkTextWithSpans
  simp [h]

theorem c2_chunks_never_produced_witness :
    chunkTextWithSpans "ab".toList defaultSegmentConfig =
      Except.error (PyErr.unboundLocalError "p") :=
  c2_chunks_never_produced "ab".toList defaultSegmentConfig (by decide)

/-- Claim C3.  The claim says empty text yields an empty chunk list and an
oversized single paragraph with no cut point yields one oversized chunk.
In fact, on empty text the function returns Python `None` (its `return`
statement is indented inside the paragraph loop, which never runs), not a
pair of empty lists; and the oversized-paragraph input raises
`UnboundLocalError('p')` before any chunk is formed. -/
theorem c3_degenerate_inputs_diverge :
    (∀ cfg : SegmentConfig, chunkTextWithSpans [] cfg = Except.ok none) ∧
      chunkTextWithSpans oversizedParagraph smallSegmentConfig =
        Except.error (PyErr.unboundLocalError "p") :=
  ⟨fun _ => rfl, rfl⟩

/-- Claim C4.  The claim says `clean` is idempotent under the default
configuration.  In fact `clean` never returns a value there: every input
ends in `AttributeError` (misspelled `bullet_sumbol` field read as
`cfg.bullet_symbol`), so `clean(clean(t))` is not even defined. -/
theorem c4_clean_default_never_returns (t : PyStr) :
    clean t defaultCleanConfig = Except.error (PyErr.attributeError "bullet_symbol") :=
  clean_bullets_attr_error t defaultCleanConfig rfl

/-- Claim C5.  The claim says `clean` on Scenario 1's input with
`header_min_repeats=2` drops both page-word lines and returns
`"Основной текст."`.  In fact the call raises `AttributeError` at the
misspelled `cfg.bullet_symbol` before the header/footer stage runs. -/
theorem c5_scenario1_raises :
    clean scenario1Text scenario1Config =
      Except.error (PyErr.attributeError "bullet_symbol") :=
  clean_bullets_attr_error scenario1Text scenario1Config rfl

/-- Claim C6.  The claim describes `_soft_cut`: `-1` when the buffer fits
within `max_len` (which does hold), otherwise a sentence-end or whitespace
offset near `target_len`.  In fact, whenever the buffer exceeds `max_len`
the function raises `NameError`: the sentence loop evaluates
`abs(ens - target)` (undefined `ens`) at the first sentence clearing
`min_len`, and otherwise the whitespace fallback evaluates
`if rigth != -1` (undefined `rigth`); no offset is ever returned. -/
theorem c6_soft_cut_claim_fails :
    (∀ (buffer : PyStr) (cfg : SegmentConfig),
        (buffer.length : Int) ≤ cfg.max_len → softCut buffer cfg = Except.ok (-1)) ∧
      softCut oversizedParagraph smallSegmentConfig =
        Except.error (PyErr.nameError "ens") ∧
      softCut "a. b. c. d.".toList noSentenceFitsConfig =
        Except.error (PyErr.nameError "rigth") := by
  refine ⟨fun buffer cfg h => ?_, rfl, rfl⟩
  unfold softCut
  rw [if_pos h]

theorem c6_soft_cut_claim_fails_witness :
    softCut "ab".toList defaultSegmentConfig = Except.ok (-1) :=
  c6_soft_cut_claim_fails.1 "ab".toList defaultSegmentConfig (by decide)

/-- Claim C7.  The claim states ordering/chaining/deduplication invariants
of the list `find_anchors` returns for every input text.  In fact
`find_anchors` cannot return a list on any text containing a clause or
bare-numbered heading: a clause match calls the undefined `_dot_depth`
(the helper is misspelled `_bot_depth` at its definition) and a
bare-number match reads the nonexistent regex group `kind`. -/
theorem c7_find_anchors_raises :
    findAnchors "Пункт 1. Общие положения".toList =
        Except.error (PyErr.nameError "_dot_depth") ∧
      findAnchors "1.2 Общие положения".toList =
        Except.error (PyErr.indexError "kind") :=
  ⟨rfl, rfl⟩

/-- Claim C8.  The first half of the claim holds: when no anchor starts at
or before `pos`, `_best_anchor_for_pos` returns an absent result.  But the
claim's "never raises" fails: whenever the candidate anchor is not a
table/figure the refinement loop evaluates `a.level > bext.level`
(undefined `bext`) and raises `NameError`; and `annotate_chunks_with_sections`
passes the `multiprocessing.current_process` function as the position, so
with any anchor present it raises `TypeError` instead of labelling. -/
theorem c8_best_anchor_claim_fails :
    (∀ (anchors : List Anchor) (pos : Int), (∀ a ∈ anchors, pos < a.start) →
        bestAnchorForPos anchors pos = Except.ok none) ∧
      bestAnchorForPos [sampleAnchor] 0 = Except.error (PyErr.nameError "bext") ∧
      annotateChunksWithSections "Таблица 1".toList ["x".toList] =
        Except.error (PyErr.typeError "le int function") := by
  refine ⟨?_, rfl, rfl⟩
  intro anchors pos h
  cases anchors with
  | nil => rfl
  | cons a rest =>
    have ha : ¬ (a.start ≤ pos) := not_le.mpr (h a (List.mem_cons_self a rest))
    unfold bestAnchorForPos
    simp [List.takeWhile_cons, ha]

theorem c8_best_anchor_claim_fails_witness :
    bestAnchorForPos [sampleAnchorLate] 0 = Except.ok none :=
  c8_best_anchor_claim_fails.1 [sampleAnchorLate] 0 (by decide)

/-- Lists: filtering a mapped list is mapping the filtered list. -/
lemma filterOfMap {α β : Type} (f : α → β) (p : β → Bool) (l : List α) :
    (l.map f).filter p = (l.filter (fun a => p (f a))).map f := by
  induction l with
  | nil => rfl
  | cons a t ih =>
    simp only [List.map_cons, List.filter_cons]
    cases h : p (f a) <;> simp [h, ih]

lemma cumChars_nil_eq (i : Nat) : cumChars [] i = 0 := by
  simp [cumChars]

lemma cumChars_zero (pm : List PageMeta) : cumChars pm 0 = 0 := by
  simp [cumChars]

lemma cumChars_cons (p : PageMeta) (rest : List PageMeta) (i : Nat) :
    cumChars (p :: rest) (i + 1) = p.chars.getD 0 + cumChars rest i := by
  simp [cumChars, List.take_succ_cons]

lemma pageNumAt_cons (p : PageMeta) (rest : List PageMeta) (k i : Nat) :
    pageNumAt (p :: rest) k (i + 1) = pageNumAt rest (k + 1) i := by
  unfold pageNumAt
  rw [List.getElem?_cons_succ]
  cases h : rest[i]? with
  | none => rfl
  | some q =>
    simp only [h]
    have : k + (i + 1) = k + 1 + i := by omega
    rw [this]

lemma pageNumAt_zero (pm : List PageMeta) (i : Nat) :
    pageNumAt pm 0 i = specPageNo pm i := by
  unfold pageNumAt specPageNo
  cases h : pm[i]? <;> simp [h]

/-- `buildCutoffs` is the positional table of cumulative ranges. -/
lemma buildCutoffs_eq (pm : List PageMeta) :
    ∀ (s : Int) (k : Nat),
      buildCutoffs pm s k = (List.range pm.length).map (fun i =>
        (s + cumChars pm i, s + cumChars pm (i + 1), pageNumAt pm k i)) := by
  induction pm with
  | nil => intro s k; simp [buildCutoffs]
  | cons p rest ih =>
    intro s k
    rw [buildCutoffs, ih, List.length_cons, List.range_succ_eq_map,
      List.map_cons, List.map_map]
    refine congrArg₂ List.cons ?_ ?_
    · have h0 : cumChars (p :: rest) 0 = 0 := cumChars_zero _
      have h1 : cumChars (p :: rest) 1 = p.chars.getD 0 := by
        rw [cumChars_cons, cumChars_zero, add_zero]
      rw [h0, h1, add_zero]
      unfold pageNumAt
      simp
    · congr 1
      funext i
      simp only [Function.comp_apply, cumChars_cons, pageNumAt_cons]
      rw [← add_assoc, ← add_assoc]

/-- The per-span hit list of the source equals the spec-side overlap
list. -/
lemma hits_eq (pm : List PageMeta) (sp : Int × Int) :
    ((buildCutoffs pm 0 0).filter (fun c =>
        !(decide (c.2.1 ≤ sp.1) || decide (c.1 ≥ sp.2)))).map (fun c => c.2.2) =
      specOverlapPages pm sp := by
  rw [buildCutoffs_eq pm 0 0, filterOfMap, List.map_map]
  unfold specOverlapPages
  congr 1
  · funext i
    simp [pageNumAt_zero]
  · congr 1
    funext i
    simp

/-- Mapping pointwise-equal functions gives equal lists. -/
lemma mapCongrFun {α β : Type} (f g : α → β) (l : List α)
    (h : ∀ a, f a = g a) : l.map f = l.map g := by
  induction l with
  | nil => rfl
  | cons a t ih => simp only [List.map_cons, h a, ih]

/-- Zeta-reduced form of `approximatePages` (definitional). -/
lemma approximatePages_eq (pm : List PageMeta) (spans : List (Int × Int)) :
    approximatePages pm spans =
      if pm.isEmpty then spans.map (fun _ => (none, none))
      else
        spans.map (fun sp =>
          minMaxOpt (((buildCutoffs pm 0 0).filter (fun c =>
            !(decide (c.2.1 ≤ sp.1) || decide (c.1 ≥ sp.2)))).map (fun c => c.2.2))) :=
  rfl

/-- Claim C9.  `approximate_pages` computes exactly the spec's description
— cumulative ranges from accumulated `chars`, `(min page, max page)` over
the overlap test `not (page_end ≤ span_start or page_start ≥ span_end)`,
`(None, None)` for empty metadata or no overlap — and Scenario 5 returns
`[(1, 2)]`. -/
theorem c9_approximate_pages_correct :
    (∀ (pm : List PageMeta) (spans : List (Int × Int)),
        approximatePages pm spans = approximatePagesSpec pm spans) ∧
      approximatePages scenario5Pages [(90, 120)] = [(some 1, some 2)] := by
  refine ⟨?_, rfl⟩
  intro pm spans
  rw [approximatePages_eq]
  unfold approximatePagesSpec
  by_cases h : pm.isEmpty
  · rw [if_pos h]
    have hpm : pm = [] := by
      cases pm with
      | nil => rfl
      | cons a t => simp [List.isEmpty] at h
    subst hpm
    apply mapCongrFun
    intro sp
    simp [specOverlapPages, minMaxOpt]
  · rw [if_neg h]
    apply mapCongrFun
    intro sp
    rw [hits_eq]

/-- Claim C10.  `approximate_pages` is the pointwise map of a per-span
function over the span list: the result has exactly one entry per input
span, in input order, and the function is total (no exception) — in
particular an empty span list gives an empty result, and absent `page` /
`chars` keys are already absorbed by the embedded `.get(k, 0)` defaults. -/
theorem c10_approximate_pages_shape :
    (∀ (pm : List PageMeta) (spans : List (Int × Int)),
        approximatePages pm spans = spans.map (pageRangeForSpan pm)) ∧
      (∀ (pm : List PageMeta) (spans : List (Int × Int)),
        (approximatePages pm spans).length = spans.length) ∧
      (∀ pm : List PageMeta, approximatePages pm [] = []) := by
  have h1 : ∀ (pm : List PageMeta) (spans : List (Int × Int)),
      approximatePages pm spans = spans.map (pageRangeForSpan pm) := by
    intro pm spans
    rw [approximatePages_eq]
    by_cases h : pm.isEmpty
    · rw [if_pos h]
      apply mapCongrFun
      intro sp
      unfold pageRangeForSpan
      rw [if_pos h]
    · rw [if_neg h]
      apply mapCongrFun
      intro sp
      unfold pageRangeForSpan
      rw [if_neg h]
  refine ⟨h1, fun pm spans => ?_, fun pm => ?_⟩
  · rw [h1, List.length_map]
  · rw [h1, List.map_nil]

end RagNorma
